import Mathlib

set_option maxRecDepth 4000

/-!
Verification of the `ai_voice_chat` repository (browser spoken-English practice app).

This file shallowly embeds the parts of the TypeScript source that the
specification's claims are about:

* `simpleTextCorrection`, `correctText`, `generateResponse`  (backend llmService)
* `processTextMessage` and the `POST /api/conversation/message` route
* `stopRecording` of the audio-recorder hook
* the speech-recognition hook's `onresult` / `onerror` handlers
* message construction in `handleStopRecording` and the client-side stores
  (`conversationStorage`, `audioStorage`)

JS strings are modelled as Lean `String`s; machine timestamps (`Date.now()`,
ISO `createdAt` strings, which round-trip through epoch milliseconds) as `Nat`;
fallible/asynchronous remote calls as explicit outcome parameters; module-scoped
mutable flags as explicit state records threaded through the functions.
-/

namespace AiVoiceChat

/-! ## JavaScript string primitives

The corrector uses the JS regexes `\bi\b`, `\s+`, `[.!?]$`, `String.trim`,
`charAt(0).toUpperCase()`, `toLowerCase` and `includes`.  They are modelled
character-exactly below (JS `\s` / `trim` whitespace class, `\w` word class). -/

/-- The JS whitespace class used by `\s` and `String.prototype.trim`. -/
def jsIsSpace (c : Char) : Bool :=
  c == ' ' || c == '\t' || c == '\n' || c == '\r' ||
  c == '\x0b' || c == '\x0c' || c == '\u00A0' || c == '\u1680' ||
  ('\u2000' ≤ c && c ≤ '\u200A') || c == '\u2028' || c == '\u2029' ||
  c == '\u202F' || c == '\u205F' || c == '\u3000' || c == '\uFEFF'

/-- JS regex word class `\w` = `[A-Za-z0-9_]`; `\b` holds between a word char
and a non-word char (or the string edge). -/
def isWordChar (c : Char) : Bool :=
  ('a' ≤ c && c ≤ 'z') || ('A' ≤ c && c ≤ 'Z') || ('0' ≤ c && c ≤ '9') || c == '_'

/-- `replace(/\bi\b/g, 'I')`: a lowercase `i` whose neighbours (if any) are
non-word characters becomes `I`.  `prevIsWord` carries the word-ness of the
preceding character. -/
def replaceSoloIList (prevIsWord : Bool) : List Char → List Char
  | [] => []
  | c :: rest =>
    let nextIsWord := match rest with
      | [] => false
      | d :: _ => isWordChar d
    let c' := if c == 'i' && !prevIsWord && !nextIsWord then 'I' else c
    c' :: replaceSoloIList (isWordChar c) rest

def replaceSoloI (s : String) : String :=
  String.mk (replaceSoloIList false s.toList)

/-- `replace(/\s+/g, ' ')`: every maximal run of whitespace becomes one space. -/
def collapseWsList (prevWasSpace : Bool) : List Char → List Char
  | [] => []
  | c :: rest =>
    if jsIsSpace c then
      if prevWasSpace then collapseWsList true rest
      else ' ' :: collapseWsList true rest
    else c :: collapseWsList false rest

def collapseWs (s : String) : String :=
  String.mk (collapseWsList false s.toList)

/-- `String.prototype.trim`. -/
def jsTrimList (l : List Char) : List Char :=
  ((l.dropWhile jsIsSpace).reverse.dropWhile jsIsSpace).reverse

def jsTrim (s : String) : String :=
  String.mk (jsTrimList s.toList)

/-- `/[.!?]$/.test s` (JS `$` without the `m` flag matches only the very end). -/
def endsWithPunct (s : String) : Bool :=
  match s.toList.getLast? with
  | some c => c == '.' || c == '!' || c == '?'
  | none => false

/-- `s.charAt(0).toUpperCase() + s.slice(1)`, guarded by `s.length > 0`. -/
def capitalizeFirst (s : String) : String :=
  match s.toList with
  | [] => ""
  | c :: rest => String.mk (Char.toUpper c :: rest)

/-- `Array.prototype.join(' ')`. -/
def joinSp : List String → String
  | [] => ""
  | [s] => s
  | s :: t :: rest => s ++ " " ++ joinSp (t :: rest)

def beginsWith : List Char → List Char → Bool
  | [], _ => true
  | _ :: _, [] => false
  | a :: as, b :: bs => a == b && beginsWith as bs

def hasInfix (needle : List Char) : List Char → Bool
  | [] => beginsWith needle []
  | c :: rest => beginsWith needle (c :: rest) || hasInfix needle rest

/-- `String.prototype.includes`. -/
def jsContains (s sub : String) : Bool :=
  hasInfix sub.toList s.toList

/-! ## `simpleTextCorrection` (backend llmService) -/

structure CorrectResult where
  correctedText : String
  explanation : String
deriving DecidableEq, Repr

/-- The deterministic local rule-based corrector: capitalize solitary `i`,
collapse repeated whitespace, ensure terminal punctuation, capitalize the
first letter; the explanation collects one sentence per applied rule and
defaults to the fixed no-errors message. -/
def simpleTextCorrection (text : String) : CorrectResult :=
  let c1 := replaceSoloI text
  let ex1 : List String :=
    if text ≠ c1 then ["Capitalized \"I\" when referring to yourself."] else []
  let c2 := collapseWs c1
  let ex2 := if c1 ≠ c2 then ex1 ++ ["Removed extra spaces."] else ex1
  let needsDot := c2.length > 0 && !endsWithPunct (jsTrim c2)
  let c3 := if needsDot then jsTrim c2 ++ "." else c2
  let ex3 := if needsDot then ex2 ++ ["Added period at the end."] else ex2
  let c4 := capitalizeFirst c3
  { correctedText := c4,
    explanation :=
      if ex3.length > 0 then joinSp ex3 else "No obvious errors found. Great job!" }

/-! ## `correctText` and `generateResponse` (backend llmService)

The module-scoped mutable flags `quotaExceeded` / `lastQuotaErrorTime`
(and their `response*` twins) become an explicit `QuotaState` threaded in and
out.  `Date.now()` is the `now` argument.  The OpenAI call is modelled by its
outcome: `success` carries the fields parsed out of the model reply (absent
JSON fields appear as `""`, matching `result.corrected || text` etc.);
`quotaError` is an exception with `code = insufficient_quota` or
`status = 429`; `otherError` is any other exception.  Every exception is
raised inside the `try`, so these functions never throw; `remoteCalled`
records whether the embedded code reached the API call. -/

structure QuotaState where
  quotaExceeded : Bool
  lastQuotaErrorTime : Nat
deriving DecidableEq, Repr

def QUOTA_ERROR_COOLDOWN : Nat := 5 * 60 * 1000

inductive RemoteOutcome where
  | success (corrected explanation : String)
  | quotaError
  | otherError
deriving DecidableEq, Repr

structure CorrectStep where
  result : CorrectResult
  state : QuotaState
  remoteCalled : Bool
deriving DecidableEq, Repr

/-- `correctText` of the backend: skip the remote call during the 5-minute
cool-down after a quota error, otherwise try the remote model when an API key
is configured and fall back to `simpleTextCorrection` on any failure. -/
def correctText (st : QuotaState) (now : Nat) (hasApiKey : Bool)
    (outcome : RemoteOutcome) (text : String) : CorrectStep :=
  if st.quotaExceeded && decide (now - st.lastQuotaErrorTime < QUOTA_ERROR_COOLDOWN) then
    { result := simpleTextCorrection text, state := st, remoteCalled := false }
  else
    let st1 := if st.quotaExceeded then { st with quotaExceeded := false } else st
    if hasApiKey then
      match outcome with
      | .success c e =>
        { result :=
            { correctedText := if c == "" then text else c,
              explanation := if e == "" then "No errors found." else e },
          state := { st1 with quotaExceeded := false },
          remoteCalled := true }
      | .quotaError =>
        { result := simpleTextCorrection text,
          state := { quotaExceeded := true, lastQuotaErrorTime := now },
          remoteCalled := true }
      | .otherError =>
        { result := simpleTextCorrection text, state := st1, remoteCalled := true }
    else
      { result := simpleTextCorrection text, state := st1, remoteCalled := false }

/-- The keyword-triggered canned-response table at the end of
`generateResponse`. -/
def simpleResponse (userText : String) : String :=
  let lowerText := userText.toLower
  if jsContains lowerText "hello" || jsContains lowerText "hi" || jsContains lowerText "hey" then
    "Hello! How are you today?"
  else if jsContains lowerText "how are you" then
    "I'm doing great, thank you for asking! How about you?"
  else if jsContains lowerText "thank you" || jsContains lowerText "thanks" then
    "You're welcome! Keep practicing!"
  else if jsContains lowerText "goodbye" || jsContains lowerText "bye" then
    "Goodbye! It was nice talking with you!"
  else
    "That's interesting! Can you tell me more about that?"

inductive ReplyOutcome where
  | success (content : String)
  | quotaError
  | otherError
deriving DecidableEq, Repr

structure GenStep where
  reply : String
  state : QuotaState
  remoteCalled : Bool
deriving DecidableEq, Repr

/-- `generateResponse` of the backend: same remote-with-fallback structure as
`correctText`, with its own independent quota state; an empty model reply is
replaced by a fixed non-empty string, and all failures fall through to
`simpleResponse`. -/
def generateResponse (st : QuotaState) (now : Nat) (hasApiKey : Bool)
    (outcome : ReplyOutcome) (userText : String) : GenStep :=
  if st.quotaExceeded && decide (now - st.lastQuotaErrorTime < QUOTA_ERROR_COOLDOWN) then
    { reply := simpleResponse userText, state := st, remoteCalled := false }
  else
    let st1 := if st.quotaExceeded then { st with quotaExceeded := false } else st
    if hasApiKey then
      match outcome with
      | .success content =>
        { reply := if content == "" then "I'm here to help you practice English!" else content,
          state := { st1 with quotaExceeded := false },
          remoteCalled := true }
      | .quotaError =>
        { reply := simpleResponse userText,
          state := { quotaExceeded := true, lastQuotaErrorTime := now },
          remoteCalled := true }
      | .otherError =>
        { reply := simpleResponse userText, state := st1, remoteCalled := true }
    else
      { reply := simpleResponse userText, state := st1, remoteCalled := false }

/-! ## `processTextMessage` and `POST /api/conversation/message` -/

structure ProcessResult where
  transcription : String
  correctedText : String
  explanation : String
  aiResponseText : String
  aiResponseAudio : String
deriving DecidableEq, Repr

/-- One request's view of the backend environment: the clock, the API-key
configuration, the two independent module-scoped quota states, and the outcome
each remote call would have if made. -/
structure PipelineEnv where
  now : Nat
  hasApiKey : Bool
  correctState : QuotaState
  correctOutcome : RemoteOutcome
  replyState : QuotaState
  replyOutcome : ReplyOutcome
deriving DecidableEq, Repr

/-- `processTextMessage` of conversationService: correction, then reply
generation, then an empty `aiResponseAudio` (TTS happens on the frontend). -/
def processTextMessage (env : PipelineEnv) (text : String) : ProcessResult :=
  let c := correctText env.correctState env.now env.hasApiKey env.correctOutcome text
  let g := generateResponse env.replyState env.now env.hasApiKey env.replyOutcome text
  { transcription := text,
    correctedText := c.result.correctedText,
    explanation := c.result.explanation,
    aiResponseText := g.reply,
    aiResponseAudio := "" }

inductive RouteResponse where
  | json (status : Nat) (body : ProcessResult)
  | error (status : Nat) (message : String)
deriving DecidableEq, Repr

def statusOf : RouteResponse → Nat
  | .json s _ => s
  | .error s _ => s

/-- The route's catch-block mapping from an escaped error's message to an HTTP
status (`conversation.ts` lines 32-39).  `processTextMessage` never throws
(every remote failure is caught inside llmService), so `postMessage` below
never reaches this mapping. -/
def statusForError (msg : String) : Nat :=
  if jsContains msg "quota" || jsContains msg "Too many requests" then 429
  else if jsContains msg "API key" || jsContains msg "invalid" then 401
  else if jsContains msg "Invalid request" then 400
  else 500

/-- `!text || typeof text !== 'string' || text.trim().length === 0`
(a missing or non-string body field is `none`). -/
def textInvalid : Option String → Bool
  | none => true
  | some t => jsTrim t == ""

/-- The `POST /api/conversation/message` handler: validate, then answer 200
with the pipeline result. -/
def postMessage (env : PipelineEnv) (text : Option String) : RouteResponse :=
  match text with
  | none => .error 400 "Text is required and cannot be empty."
  | some t =>
    if jsTrim t == "" then .error 400 "Text is required and cannot be empty."
    else .json 200 (processTextMessage env (jsTrim t))

/-! ## `stopRecording` (useAudioRecorder hook)

A capture session is the accumulated `ondataavailable` chunks (byte lists)
plus the `recordingStartTimeRef` value; `stopRecording`'s `onstop` callback
assembles the chunks into one blob (`new Blob(audioChunksRef.current)`,
i.e. concatenation) and applies the duration and size thresholds. -/

structure RecorderState where
  chunks : List (List Nat)
  startTime : Nat
deriving DecidableEq, Repr

def MIN_RECORDING_DURATION : Nat := 500

/-- `stopRecording` for a live session (`mediaRecorderRef.current` non-null):
`now` is the `Date.now()` read when stop is requested. -/
def stopRecording (st : RecorderState) (now : Nat) : Option (List Nat) :=
  let recordingDuration := now - st.startTime
  let audioBlob := st.chunks.flatten
  if recordingDuration < MIN_RECORDING_DURATION then none
  else if audioBlob.length < 1024 then none
  else some audioBlob

/-! ## Messages and the client-side stores

`createdAt` is an ISO-8601 string in the source, produced by
`new Date(ms).toISOString()` and compared via `new Date(s).getTime()`;
this round-trips through the epoch-millisecond value, which is what we store. -/

structure Message where
  id : String
  conversationId : String
  type : String
  transcription : Option String := none
  correctedText : Option String := none
  explanation : Option String := none
  aiResponseText : Option String := none
  userAudioUrl : Option String := none
  createdAt : Nat
deriving DecidableEq, Repr

/-- The user message built in `handleStopRecording` from `now = Date.now()`,
the submitted text, the backend response and the optional recorded-audio
reference. -/
def mkUserMessage (now : Nat) (conversationId : Option String)
    (textToSend : String) (resp : ProcessResult) (userAudioUrl : Option String) : Message :=
  { id := "user_" ++ toString now,
    conversationId := conversationId.getD "temp",
    type := "user",
    transcription := some textToSend,
    correctedText := some resp.correctedText,
    explanation := some resp.explanation,
    userAudioUrl := userAudioUrl,
    createdAt := now }

/-- The paired AI message: same turn, timestamp `now + 1`. -/
def mkAiMessage (now : Nat) (conversationId : Option String)
    (resp : ProcessResult) : Message :=
  { id := "ai_" ++ toString (now + 1),
    conversationId := conversationId.getD "temp",
    type := "ai",
    aiResponseText := some resp.aiResponseText,
    createdAt := now + 1 }

/-- `saveMessage`'s `messages.sort((a, b) => aTime - bTime)`: a stable
ascending sort by `createdAt`, modelled as insertion sort. -/
def insertByCreatedAt (m : Message) : List Message → List Message
  | [] => [m]
  | x :: xs =>
    if m.createdAt ≤ x.createdAt then m :: x :: xs else x :: insertByCreatedAt m xs

def sortByCreatedAt : List Message → List Message
  | [] => []
  | x :: xs => insertByCreatedAt x (sortByCreatedAt xs)

structure Conversation where
  id : String
  userId : Option String := none
  title : Option String := none
  lastMessage : Option String := none
  lastMessageAt : Option Nat := none
  createdAt : Nat
  updatedAt : Nat
  messageCount : Option Nat := none
deriving DecidableEq, Repr

/-- The client persistence substrate: the conversation list (one localStorage
key), a message list per conversation id (one key each), and the IndexedDB
audio object store keyed by `audio_<messageId>`. -/
structure ClientStore where
  conversations : List Conversation
  messages : List (String × List Message)
  audio : List (String × List Nat)
deriving DecidableEq, Repr

def getConversations (s : ClientStore) : List Conversation :=
  s.conversations

/-- `getConversation`: `conversations.find(c => c.id === id) || null`. -/
def getConversation (s : ClientStore) (id : String) : Option Conversation :=
  (getConversations s).find? (fun c => c.id == id)

/-- `getMessages`: the stored list for the conversation key, `[]` if absent. -/
def getMessages (s : ClientStore) (conversationId : String) : List Message :=
  match s.messages.lookup conversationId with
  | some l => l
  | none => []

/-- `audioStorage.getAudio`: `none` models the store's "not found" (`null`). -/
def getAudio (s : ClientStore) (audioId : String) : Option (List Nat) :=
  s.audio.lookup audioId

/-- `audioStorage.deleteAudio`: remove the keyed entry. -/
def deleteAudio (s : ClientStore) (audioId : String) : ClientStore :=
  { s with audio := s.audio.filter (fun p => p.1 != audioId) }

/-- JS truthiness of `message.userAudioUrl` (`undefined` and `""` are falsy). -/
def audioRefTruthy : Option String → Bool
  | none => false
  | some u => u != ""

/-- The loop body of `deleteConversation`: for a message with a truthy
`userAudioUrl`, delete the audio object keyed `audio_<messageId>`. -/
def purgeMessageAudio (acc : ClientStore) (m : Message) : ClientStore :=
  if audioRefTruthy m.userAudioUrl then deleteAudio acc ("audio_" ++ m.id) else acc

/-- `deleteConversation`: filter the conversation out of the list, delete the
audio object of every message with a truthy `userAudioUrl`, then remove the
conversation's message-list key. -/
def deleteConversation (s : ClientStore) (id : String) : ClientStore :=
  let s1 := { s with conversations := (getConversations s).filter (fun c => c.id != id) }
  let msgs := getMessages s1 id
  let s2 := msgs.foldl purgeMessageAudio s1
  { s2 with messages := s2.messages.filter (fun p => p.1 != id) }

/-! ## Speech recognition: `onresult` transcripts (useSpeechRecognition) -/

structure SpeechSegment where
  transcript : String
  isFinal : Bool
deriving DecidableEq, Repr

/-- One `SpeechRecognitionEvent`: the engine's results array plus the index of
the first changed result; the handler's loop runs from `resultIndex` to the
end of `results`. -/
structure SpeechResultEvent where
  results : List SpeechSegment
  resultIndex : Nat
deriving DecidableEq, Repr

/-- `finalTranscript += transcript + ' '` over the handled range. -/
def eventFinalConcat (segs : List SpeechSegment) : String :=
  segs.foldl (fun acc s => if s.isFinal then acc ++ s.transcript ++ " " else acc) ""

/-- `interimTranscript += transcript` over the handled range. -/
def eventInterimConcat (segs : List SpeechSegment) : String :=
  segs.foldl (fun acc s => if s.isFinal then acc else acc ++ s.transcript) ""

def processedResults (e : SpeechResultEvent) : List SpeechSegment :=
  e.results.drop e.resultIndex

/-- The value passed to `setTranscript`:
`(finalTranscript || interimTranscript).trim()`. -/
def exposedTranscript (e : SpeechResultEvent) : String :=
  let finalTranscript := eventFinalConcat (processedResults e)
  let interimTranscript := eventInterimConcat (processedResults e)
  jsTrim (if finalTranscript == "" then interimTranscript else finalTranscript)

/-- The hook's `transcript` state after a sequence of result events: each
event overwrites it with its own `exposedTranscript`. -/
def transcriptAfter (init : String) (events : List SpeechResultEvent) : String :=
  events.foldl (fun _ e => exposedTranscript e) init

/-- Modelled from the spec's words, for comparison with the code (claim C7):
"the concatenation of all final segments of the session once any final segment
exists, otherwise the latest interim text".  In the Web Speech API the latest
event's `results` array holds all results of the session, so "all final
segments of the session" is the concatenation over the whole array. -/
def claimedSessionTranscript (events : List SpeechResultEvent) : String :=
  match events.getLast? with
  | none => ""
  | some e =>
    let allFinal := eventFinalConcat e.results
    if allFinal == "" then jsTrim (eventInterimConcat (processedResults e))
    else jsTrim allFinal

/-! ## Speech recognition: `onerror` (useSpeechRecognition) -/

structure RecogState where
  noSpeechCount : Nat
  isListening : Bool
  error : Option String
  surfaced : List String
deriving DecidableEq, Repr

def noSpeechWarning : String :=
  "No speech detected multiple times. Please speak clearly."

inductive SpeechErrorKind where
  | noSpeech
  | aborted
  | audioCapture
  | network
  | notAllowed
  | serviceNotAllowed
  | other (s : String)
deriving DecidableEq, Repr

def defaultErrorMessage : SpeechErrorKind → String
  | .noSpeech => "No speech detected. Please try again."
  | .aborted => "Speech recognition was aborted."
  | .audioCapture => "No microphone found. Please check your microphone."
  | .network => "Network error occurred. Please check your internet connection."
  | .notAllowed => "Microphone permission denied. Please allow microphone access."
  | .serviceNotAllowed => "Speech recognition service not allowed. Please check browser settings."
  | .other s => "Speech recognition error: " ++ s

/-- `recognition.onerror`.  `surfaced` records the messages delivered through
the `onError` callback; `error` is the hook's error state.  In continuous mode
the first four consecutive no-speech errors return early (no error, no
callback, listening untouched); the fifth surfaces `noSpeechWarning` and still
returns without stopping.  `aborted` only clears `isListening`.  Every other
kind resets the counter, surfaces its message and stops listening. -/
def onerror (continuous : Bool) (k : SpeechErrorKind) (st : RecogState) : RecogState :=
  match k with
  | .noSpeech =>
    if continuous then
      let c := st.noSpeechCount + 1
      if c < 5 then { st with noSpeechCount := c }
      else
        { st with noSpeechCount := c, error := some noSpeechWarning,
                  surfaced := st.surfaced ++ [noSpeechWarning] }
    else
      { st with error := some (defaultErrorMessage .noSpeech),
                isListening := false,
                surfaced := st.surfaced ++ [defaultErrorMessage .noSpeech] }
  | .aborted => { st with isListening := false }
  | .audioCapture => errorTail st (defaultErrorMessage .audioCapture)
  | .network => errorTail st (defaultErrorMessage .network)
  | .notAllowed => errorTail st (defaultErrorMessage .notAllowed)
  | .serviceNotAllowed => errorTail st (defaultErrorMessage .serviceNotAllowed)
  | .other s => errorTail st (defaultErrorMessage (.other s))
where
  /-- the handler's common tail for non-suppressed kinds: reset the no-speech
  counter, set the error, stop listening, invoke `onError`. -/
  errorTail (st : RecogState) (msg : String) : RecogState :=
    { st with noSpeechCount := 0, error := some msg, isListening := false,
              surfaced := st.surfaced ++ [msg] }

/-- `recognition.onresult` starts by resetting the consecutive no-speech
counter, so a run of no-speech errors after any result starts from zero. -/
def afterResultReset (st : RecogState) : RecogState :=
  { st with noSpeechCount := 0 }

/-- `n` consecutive `no-speech` errors delivered to `onerror`. -/
def iterateNoSpeech : Nat → RecogState → RecogState
  | 0, st => st
  | n + 1, st => onerror true .noSpeech (iterateNoSpeech n st)

/-! ## Concrete instances used by witnesses and counterexamples -/

/-- A request environment in which the remote model is configured and fails
with a quota/rate-limit error, outside any cool-down. -/
def envQuota : PipelineEnv :=
  { now := 0, hasApiKey := true,
    correctState := { quotaExceeded := false, lastQuotaErrorTime := 0 },
    correctOutcome := .quotaError,
    replyState := { quotaExceeded := false, lastQuotaErrorTime := 0 },
    replyOutcome := .quotaError }

/-- A stored user message holding a recorded-audio reference. -/
def demoMsg : Message :=
  { id := "m1", conversationId := "c1", type := "user",
    transcription := some "hi", userAudioUrl := some "audio_m1", createdAt := 10 }

/-- A store with one conversation, one message and its audio object. -/
def demoStore : ClientStore :=
  { conversations := [{ id := "c1", createdAt := 5, updatedAt := 10 }],
    messages := [("c1", [demoMsg])],
    audio := [("audio_m1", [1, 2, 3])] }

/-- First recognition event of a session: one final segment `"hello"`. -/
def ev1 : SpeechResultEvent := { results := [{ transcript := "hello", isFinal := true }], resultIndex := 0 }

/-- Second event: the session's results array has grown by the final segment
`"world"`; `resultIndex` points at the changed tail, as the Web Speech API
delivers it in continuous mode. -/
def ev2 : SpeechResultEvent :=
  { results := [{ transcript := "hello", isFinal := true }, { transcript := "world", isFinal := true }],
    resultIndex := 1 }

/-! # Theorems

One theorem per claim of the specification, in claim order, with the helper
lemmas they share. -/

/-- C1: while the quota cool-down is active (a quota error is recorded and
less than 5 minutes have elapsed), `correctText` returns exactly
`simpleTextCorrection text` and makes no remote model call. -/
theorem correctText_cooldown_uses_simple (st : QuotaState) (now : Nat)
    (hasApiKey : Bool) (outcome : RemoteOutcome) (text : String)
    (hq : st.quotaExceeded = true)
    (ht : now - st.lastQuotaErrorTime < QUOTA_ERROR_COOLDOWN) :
    (correctText st now hasApiKey outcome text).result = simpleTextCorrection text ∧
    (correctText st now hasApiKey outcome text).remoteCalled = false := by
  unfold correctText
  rw [hq]
  simp [ht]

/-- Witness for C1: a concrete in-cool-down state (error at 0 ms, stop at
1000 ms) with a configured key and a would-succeed remote outcome. -/
theorem correctText_cooldown_uses_simple_witness :
    (correctText ⟨true, 0⟩ 1000 true (.success "X" "Y") "i am happy").result
        = simpleTextCorrection "i am happy" ∧
    (correctText ⟨true, 0⟩ 1000 true (.success "X" "Y") "i am happy").remoteCalled = false :=
  correctText_cooldown_uses_simple ⟨true, 0⟩ 1000 true (.success "X" "Y") "i am happy"
    rfl (by decide)

/-- C2: `stopRecording` yields no artifact exactly when the elapsed time is
below 500 ms or the assembled blob is below 1024 bytes, and yields the
assembled blob (the concatenation of the chunks) otherwise. -/
theorem stopRecording_thresholds (st : RecorderState) (now : Nat) :
    stopRecording st now =
      if now - st.startTime < 500 ∨ (st.chunks.flatten).length < 1024
      then none else some st.chunks.flatten := by
  unfold stopRecording MIN_RECORDING_DURATION
  by_cases h1 : now - st.startTime < 500
  · simp [h1]
  · by_cases h2 : (st.chunks.flatten).length < 1024
    · simp [h1, h2]
    · simp [h1, h2]

/-- C3: a completed turn's user message is stamped `now` and its AI reply
`now + 1` — exactly one millisecond apart — and `saveMessage`'s sort by
creation time puts the user message strictly first from either insertion
order. -/
theorem messagePair_timestamps_ordered (now : Nat) (cid : Option String)
    (text : String) (resp : ProcessResult) (audioUrl : Option String) :
    (mkUserMessage now cid text resp audioUrl).createdAt = now ∧
    (mkAiMessage now cid resp).createdAt = now + 1 ∧
    (mkUserMessage now cid text resp audioUrl).createdAt + 1
        = (mkAiMessage now cid resp).createdAt ∧
    sortByCreatedAt [mkUserMessage now cid text resp audioUrl, mkAiMessage now cid resp]
        = [mkUserMessage now cid text resp audioUrl, mkAiMessage now cid resp] ∧
    sortByCreatedAt [mkAiMessage now cid resp, mkUserMessage now cid text resp audioUrl]
        = [mkUserMessage now cid text resp audioUrl, mkAiMessage now cid resp] := by
  refine ⟨rfl, rfl, rfl, ?_, ?_⟩
  · simp [sortByCreatedAt, insertByCreatedAt, mkUserMessage, mkAiMessage, Nat.le_succ]
  · simp [sortByCreatedAt, insertByCreatedAt, mkUserMessage, mkAiMessage, Nat.not_succ_le_self]

/-- C8: the local corrector turns `"i am happy"` into `"I am happy."` and its
explanation lists both the `"I"` capitalization and the added period. -/
theorem simpleCorrection_i_am_happy :
    (simpleTextCorrection "i am happy").correctedText = "I am happy." ∧
    (simpleTextCorrection "i am happy").explanation =
      "Capitalized \"I\" when referring to yourself. Added period at the end." ∧
    jsContains (simpleTextCorrection "i am happy").explanation
      "Capitalized \"I\" when referring to yourself." = true ∧
    jsContains (simpleTextCorrection "i am happy").explanation
      "Added period at the end." = true := by
  refine ⟨by decide, by decide, by decide, by decide⟩

/-- Counterexample to C9 as stated: on `"I am fine."` the explanation is the
default message `"No obvious errors found. Great job!"`, which extends
strictly beyond `"No obvious errors found."`. -/
theorem iAmFine_explanation_extends :
    (simpleTextCorrection "I am fine.").explanation
        = "No obvious errors found. Great job!" ∧
    (simpleTextCorrection "I am fine.").explanation
        ≠ "No obvious errors found." := by
  refine ⟨by decide, by decide⟩

/-- C9 (amended): the corrector is idempotent on `"I am fine."` — the
corrected text is returned unchanged — and the explanation is exactly the
fixed no-errors default `"No obvious errors found. Great job!"`, with no
correction notes. -/
theorem iAmFine_idempotent_default_message :
    (simpleTextCorrection "I am fine.").correctedText = "I am fine." ∧
    (simpleTextCorrection (simpleTextCorrection "I am fine.").correctedText).correctedText
        = (simpleTextCorrection "I am fine.").correctedText ∧
    (simpleTextCorrection "I am fine.").explanation
        = "No obvious errors found. Great job!" := by
  refine ⟨by decide, by decide, by decide⟩

/-- Counterexample to C5 as stated: with a configured key and a remote
quota/rate-limit failure (the call is made: `remoteCalled = true`), the
endpoint answers 200 with the fallback body, not 429. -/
theorem postMessage_quota_returns_200 :
    envQuota.correctOutcome = RemoteOutcome.quotaError ∧
    (correctText envQuota.correctState envQuota.now envQuota.hasApiKey
        envQuota.correctOutcome "hello").remoteCalled = true ∧
    statusOf (postMessage envQuota (some "hello")) = 200 ∧
    statusOf (postMessage envQuota (some "hello")) ≠ 429 := by
  refine ⟨rfl, by decide, by decide, by decide⟩

/-- C5 (amended): the endpoint answers 400 exactly when the text is missing,
not a string, or trims to empty; every other request — whatever the upstream
outcome, quota errors included — is answered 200, because the correction and
reply steps absorb upstream failures into local fallbacks and
`processTextMessage` never throws (the catch mapping `statusForError`, which
would produce 429/401/500, is unreachable). -/
theorem postMessage_status (env : PipelineEnv) (text : Option String) :
    statusOf (postMessage env text) = if textInvalid text then 400 else 200 := by
  cases text with
  | none => rfl
  | some t =>
    unfold postMessage textInvalid
    cases h : (jsTrim t == "") <;> simp [h, statusOf]

/-- C10: `generateResponse` always returns a non-empty reply — every outcome
(cool-down skip, missing key, quota error, other error, empty model reply)
lands on a non-empty string. -/
theorem generateResponse_always_nonempty (st : QuotaState) (now : Nat)
    (hasApiKey : Bool) (outcome : ReplyOutcome) (userText : String) :
    (generateResponse st now hasApiKey outcome userText).reply ≠ "" := by
  have hs : simpleResponse userText ≠ "" := by
    unfold simpleResponse
    dsimp only
    split_ifs <;> decide
  unfold generateResponse
  cases h1 : (st.quotaExceeded && decide (now - st.lastQuotaErrorTime < QUOTA_ERROR_COOLDOWN)) with
  | true => simpa using hs
  | false =>
    cases hasApiKey with
    | false => simpa using hs
    | true =>
      cases outcome with
      | success content =>
        cases hc : (content == "") with
        | true => simp [hc]
        | false =>
          simp only [Bool.false_eq_true, if_false, hc]
          simp at hc
          simpa using hc
      | quotaError => simpa using hs
      | otherError => simpa using hs

/-! ### Store lemmas for the deletion cascade -/

theorem find?_id_filter_ne (id : String) (l : List Conversation) :
    List.find? (fun c => c.id == id) (List.filter (fun c => c.id != id) l) = none := by
  induction l with
  | nil => rfl
  | cons c t ih =>
    by_cases h : c.id = id
    · simp [List.filter_cons, h, ih]
    · simp [List.filter_cons, h, List.find?_cons, ih]

theorem lookup_filter_self {β : Type} (k : String) (l : List (String × β)) :
    List.lookup k (List.filter (fun p => p.1 != k) l) = none := by
  induction l with
  | nil => rfl
  | cons p t ih =>
    by_cases h : p.1 = k
    · simpa [List.filter_cons, h] using ih
    · have hk : (k == p.1) = false := by simpa using Ne.symm h
      simp [List.filter_cons, h, List.lookup, hk, ih]

theorem lookup_none_filter {β : Type} (k : String) (q : String × β → Bool)
    (l : List (String × β)) (h : List.lookup k l = none) :
    List.lookup k (List.filter q l) = none := by
  induction l with
  | nil => rfl
  | cons p t ih =>
    rcases p with ⟨a, b⟩
    cases hk : (k == a) with
    | true => simp [List.lookup, hk] at h
    | false =>
      rw [List.lookup, hk] at h
      by_cases hq : q (a, b) = true
      · simp [List.filter_cons, hq, List.lookup, hk, ih h]
      · simp [List.filter_cons, hq, ih h]

theorem getAudio_deleteAudio_self (s : ClientStore) (k : String) :
    getAudio (deleteAudio s k) k = none := by
  simpa [getAudio, deleteAudio] using lookup_filter_self k s.audio

theorem getAudio_deleteAudio_of_none (s : ClientStore) (k k' : String)
    (h : getAudio s k = none) : getAudio (deleteAudio s k') k = none := by
  simp only [getAudio, deleteAudio] at h ⊢
  exact lookup_none_filter k _ s.audio h

theorem purge_foldl_audio_none (k : String) (msgs : List Message) :
    ∀ s : ClientStore, getAudio s k = none →
      getAudio (msgs.foldl purgeMessageAudio s) k = none := by
  induction msgs with
  | nil => intro s h; simpa using h
  | cons m t ih =>
    intro s h
    rw [List.foldl_cons]
    apply ih
    unfold purgeMessageAudio
    by_cases hm : audioRefTruthy m.userAudioUrl = true
    · simpa [hm] using getAudio_deleteAudio_of_none s k _ h
    · simpa [hm] using h

theorem purge_foldl_deletes (msgs : List Message) :
    ∀ (s : ClientStore) (m : Message), m ∈ msgs →
      audioRefTruthy m.userAudioUrl = true →
      getAudio (msgs.foldl purgeMessageAudio s) ("audio_" ++ m.id) = none := by
  induction msgs with
  | nil => intro s m hm; cases hm
  | cons hd t ih =>
    intro s m hm htr
    rw [List.foldl_cons]
    rcases List.mem_cons.mp hm with rfl | hmem
    · apply purge_foldl_audio_none
      unfold purgeMessageAudio
      simpa [htr] using getAudio_deleteAudio_self s _
    · exact ih _ m hmem htr

theorem purge_foldl_conversations (msgs : List Message) :
    ∀ s : ClientStore, (msgs.foldl purgeMessageAudio s).conversations = s.conversations := by
  induction msgs with
  | nil => intro s; rfl
  | cons hd t ih =>
    intro s
    rw [List.foldl_cons, ih]
    unfold purgeMessageAudio deleteAudio
    by_cases h : audioRefTruthy hd.userAudioUrl = true <;> simp [h]

theorem purge_foldl_messages (msgs : List Message) :
    ∀ s : ClientStore, (msgs.foldl purgeMessageAudio s).messages = s.messages := by
  induction msgs with
  | nil => intro s; rfl
  | cons hd t ih =>
    intro s
    rw [List.foldl_cons, ih]
    unfold purgeMessageAudio deleteAudio
    by_cases h : audioRefTruthy hd.userAudioUrl = true <;> simp [h]

/-- C4: `deleteConversation` removes the conversation's entry, empties its
message list, and deletes the audio object of every message that references
one, so afterwards `getConversation` is `none`, `getMessages` is `[]`, and
`getAudio` on each referenced key `audio_<messageId>` reports not-found. -/
theorem deleteConversation_cascades (s : ClientStore) (id : String) :
    getConversation (deleteConversation s id) id = none ∧
    getMessages (deleteConversation s id) id = [] ∧
    ∀ m, m ∈ getMessages s id → audioRefTruthy m.userAudioUrl = true →
      getAudio (deleteConversation s id) ("audio_" ++ m.id) = none := by
  refine ⟨?_, ?_, ?_⟩
  · show List.find? _ _ = none
    simp only [deleteConversation, getConversation, getConversations]
    rw [purge_foldl_conversations]
    exact find?_id_filter_ne id s.conversations
  · simp only [deleteConversation, getMessages, getConversations]
    rw [purge_foldl_messages]
    rw [lookup_filter_self]
  · intro m hm htr
    simp only [deleteConversation, getAudio, getConversations]
    have hmsgs : getMessages { s with conversations := List.filter (fun c => c.id != id) s.conversations } id
        = getMessages s id := by
      simp [getMessages]
    rw [hmsgs]
    exact purge_foldl_deletes (getMessages s id) _ m hm htr

/-- Witness for C4 on a one-conversation store: the conversation, its message
list and its referenced audio object are all gone. -/
theorem deleteConversation_cascades_witness :
    getConversation (deleteConversation demoStore "c1") "c1" = none ∧
    getMessages (deleteConversation demoStore "c1") "c1" = [] ∧
    getAudio (deleteConversation demoStore "c1") "audio_m1" = none := by
  refine ⟨(deleteConversation_cascades demoStore "c1").1,
          (deleteConversation_cascades demoStore "c1").2.1, ?_⟩
  have h := (deleteConversation_cascades demoStore "c1").2.2 demoMsg (by decide) (by decide)
  have e : ("audio_" ++ demoMsg.id) = "audio_m1" := by decide
  rw [e] at h
  exact h

/-- C6: from a fresh counter, five consecutive no-speech errors in continuous
mode surface exactly one warning — none in the first four steps, the fixed
warning at the fifth — and `isListening` is untouched at every step of the
run. -/
theorem noSpeech_run_one_warning (st : RecogState) (h : st.noSpeechCount = 0) :
    (∀ n, n ≤ 4 → (iterateNoSpeech n st).surfaced = st.surfaced ∧
                  (iterateNoSpeech n st).error = st.error) ∧
    (iterateNoSpeech 5 st).surfaced = st.surfaced ++ [noSpeechWarning] ∧
    (iterateNoSpeech 5 st).error = some noSpeechWarning ∧
    (∀ n, n ≤ 5 → (iterateNoSpeech n st).isListening = st.isListening) := by
  have h1 : iterateNoSpeech 1 st = { st with noSpeechCount := 1 } := by
    show onerror true .noSpeech (iterateNoSpeech 0 st) = _
    simp [iterateNoSpeech, onerror, h]
  have h2 : iterateNoSpeech 2 st = { st with noSpeechCount := 2 } := by
    show onerror true .noSpeech (iterateNoSpeech 1 st) = _
    rw [h1]; simp [onerror]
  have h3 : iterateNoSpeech 3 st = { st with noSpeechCount := 3 } := by
    show onerror true .noSpeech (iterateNoSpeech 2 st) = _
    rw [h2]; simp [onerror]
  have h4 : iterateNoSpeech 4 st = { st with noSpeechCount := 4 } := by
    show onerror true .noSpeech (iterateNoSpeech 3 st) = _
    rw [h3]; simp [onerror]
  have h5 : iterateNoSpeech 5 st =
      { st with noSpeechCount := 5, error := some noSpeechWarning,
                surfaced := st.surfaced ++ [noSpeechWarning] } := by
    show onerror true .noSpeech (iterateNoSpeech 4 st) = _
    rw [h4]; simp [onerror]
  refine ⟨?_, by rw [h5], by rw [h5], ?_⟩
  · intro n hn
    interval_cases n
    · exact ⟨rfl, rfl⟩
    · rw [h1]; exact ⟨rfl, rfl⟩
    · rw [h2]; exact ⟨rfl, rfl⟩
    · rw [h3]; exact ⟨rfl, rfl⟩
    · rw [h4]; exact ⟨rfl, rfl⟩
  · intro n hn
    interval_cases n
    · rfl
    · rw [h1]
    · rw [h2]
    · rw [h3]
    · rw [h4]
    · rw [h5]

/-- Witness for C6: a listening session with a fresh counter surfaces exactly
the one warning after five no-speech errors and is still listening. -/
theorem noSpeech_run_one_warning_witness :
    (iterateNoSpeech 5 ⟨0, true, none, []⟩).surfaced = [noSpeechWarning] ∧
    (iterateNoSpeech 4 ⟨0, true, none, []⟩).surfaced = [] ∧
    (iterateNoSpeech 5 ⟨0, true, none, []⟩).isListening = true := by
  refine ⟨?_, ?_, ?_⟩
  · simpa using (noSpeech_run_one_warning ⟨0, true, none, []⟩ rfl).2.1
  · simpa using ((noSpeech_run_one_warning ⟨0, true, none, []⟩ rfl).1 4 (by decide)).1
  · simpa using (noSpeech_run_one_warning ⟨0, true, none, []⟩ rfl).2.2.2 5 (by decide)

/-- Counterexample to C7 as stated: after a session of two events whose final
segments are `"hello"` then `"world"` (the second event's `resultIndex`
pointing at the changed tail), the exposed transcript is `"world"`, not the
session-wide concatenation `"hello world"` the claim predicts — the handler
only concatenates from `resultIndex` on. -/
theorem transcript_not_session_concat :
    transcriptAfter "" [ev1, ev2] = "world" ∧
    claimedSessionTranscript [ev1, ev2] = "hello world" ∧
    transcriptAfter "" [ev1, ev2] ≠ claimedSessionTranscript [ev1, ev2] := by
  refine ⟨by decide, by decide, by decide⟩

/-- C7 (amended): the exposed transcript always equals the latest event's
value, which is the trimmed concatenation of the final segments *from that
event's `resultIndex` on* when any of them is final, and the trimmed
concatenation of the interim segments in that range otherwise — per event,
not cumulative over the session. -/
theorem transcript_per_event (init : String) (es : List SpeechResultEvent)
    (e : SpeechResultEvent) :
    transcriptAfter init (es ++ [e]) = exposedTranscript e ∧
    (eventFinalConcat (processedResults e) ≠ "" →
      exposedTranscript e = jsTrim (eventFinalConcat (processedResults e))) ∧
    (eventFinalConcat (processedResults e) = "" →
      exposedTranscript e = jsTrim (eventInterimConcat (processedResults e))) := by
  refine ⟨?_, ?_, ?_⟩
  · simp [transcriptAfter, List.foldl_append]
  · intro hne
    unfold exposedTranscript
    have : (eventFinalConcat (processedResults e) == "") = false := by
      simpa using hne
    simp [this]
  · intro heq
    unfold exposedTranscript
    simp [heq]

/-- Witness for C7 (amended) at a concrete session whose latest event has a
final segment in its handled range. -/
theorem transcript_per_event_witness :
    transcriptAfter "x" [ev1, ev2] = exposedTranscript ev2 ∧
    exposedTranscript ev2 = jsTrim (eventFinalConcat (processedResults ev2)) := by
  refine ⟨?_, ?_⟩
  · exact (transcript_per_event "x" [ev1] ev2).1
  · exact (transcript_per_event "x" [ev1] ev2).2.1 (by decide)

end AiVoiceChat
